import Mathlib

/-!
# Verification of the greenlit incident classification & routing engine

Shallow embedding of the TypeScript sources under `src/` of the
`Avinier/greenlit` repository:

* `src/agent/signatures.ts` — fingerprinting and the signature ledger
* `src/agent/routing.ts` — the policy router
* `src/agent/owner-routing.ts` — the owner resolver
* `src/collector/evidence.ts` — the evidence extractor
* `src/collector/types.ts` — the failure classifier

JavaScript strings are modelled as `String`/`List Char` (the development
only exercises the ASCII range, where JS UTF-16 semantics, `String.data`
and UTF-8 byte counts agree).  JS numbers are `Nat`/`Int` with explicit
wrap-around where needed.  External effects (the file system, `git`
subprocesses, `Date.now`/`Date.parse`) are passed in as explicit
environment values.  Every definition is executable so that witness
theorems can evaluate them on concrete inputs.
-/

namespace Greenlit

/-! ## Small character / string helpers (JS semantics, ASCII range) -/

/-- JavaScript `\s` restricted to the ASCII range: space, tab, newline,
carriage return, vertical tab, form feed. -/
def isJsWs (c : Char) : Bool :=
  c == ' ' || c == '\t' || c == '\n' || c == '\r' ||
  c == Char.ofNat 11 || c == Char.ofNat 12

/-- JavaScript `\w`: letters, digits, underscore. -/
def isWordChar (c : Char) : Bool :=
  c.isAlphanum || c == '_'

/-- Character class `[\w\-\.\/]` used by the path-normalisation regex. -/
def isPathChar (c : Char) : Bool :=
  isWordChar c || c == '-' || c == '.' || c == '/'

/-- JS `String.prototype.trim` (ASCII whitespace set). -/
def trimChars (s : List Char) : List Char :=
  ((s.dropWhile isJsWs).reverse.dropWhile isJsWs).reverse

/-- Does `needle` occur as a contiguous substring of `hay`?
(JS `String.prototype.includes` / a literal regex test.) -/
def containsSub (needle : List Char) : List Char → Bool
  | [] => needle.isEmpty
  | c :: cs => needle.isPrefixOf (c :: cs) || containsSub needle cs

/-- String-level wrapper for `containsSub`. -/
def strContains (hay needle : String) : Bool :=
  containsSub needle.data hay.data

/-- Split a character list at `'\n'` (JS `split("\n")`): always returns at
least one (possibly empty) piece. -/
def splitNl : List Char → List (List Char)
  | [] => [[]]
  | c :: cs =>
    let r := splitNl cs
    if c == '\n' then [] :: r
    else
      match r with
      | h :: t => (c :: h) :: t
      | [] => [[c]]

/-- JS `x || d` on an optional string: `undefined` and `""` are falsy. -/
def jsOrStr (x : Option String) (d : String) : String :=
  match x with
  | none => d
  | some v => if v = "" then d else v

/-- First `n` characters of a string (JS `slice(0, n)` on ASCII text). -/
def takeChars (n : Nat) (s : String) : String :=
  ⟨s.data.take n⟩

/-! ## SHA-256 (`crypto.createHash("sha256")`)

A direct implementation of FIPS 180-4 over byte lists, used by
`computeSignature` below exactly as the source uses node's `crypto`
module. -/

/-- Truncate to 32 bits. -/
def u32 (x : Nat) : Nat := x % 4294967296

/-- 32-bit rotate right. -/
def rotr (n x : Nat) : Nat := u32 ((x >>> n) ||| (x <<< (32 - n)))

/-- 32-bit bitwise complement. -/
def bnot32 (x : Nat) : Nat := 4294967295 ^^^ x

/-- The 64 SHA-256 round constants (FIPS 180-4 §4.2.2, written in
decimal). -/
def shaK : List Nat :=
  [1116352408, 1899447441, 3049323471, 3921009573,
   961987163, 1508970993, 2453635748, 2870763221,
   3624381080, 310598401, 607225278, 1426881987,
   1925078388, 2162078206, 2614888103, 3248222580,
   3835390401, 4022224774, 264347078, 604807628,
   770255983, 1249150122, 1555081692, 1996064986,
   2554220882, 2821834349, 2952996808, 3210313671,
   3336571891, 3584528711, 113926993, 338241895,
   666307205, 773529912, 1294757372, 1396182291,
   1695183700, 1986661051, 2177026350, 2456956037,
   2730485921, 2820302411, 3259730800, 3345764771,
   3516065817, 3600352804, 4094571909, 275423344,
   430227734, 506948616, 659060556, 883997877,
   958139571, 1322822218, 1537002063, 1747873779,
   1955562222, 2024104815, 2227730452, 2361852424,
   2428436474, 2756734187, 3204031479, 3329325298]

/-- The SHA-256 initial hash value (FIPS 180-4 §5.3.3, in decimal). -/
def shaH0 : List Nat :=
  [1779033703, 3144134277, 1013904242, 2773480762,
   1359893119, 2600822924, 528734635, 1541459225]

/-- Big-endian bytes of the 64-bit message length (in bits). -/
def lenBytes (bits : Nat) : List Nat :=
  (List.range 8).map fun i => (bits >>> (8 * (7 - i))) % 256

/-- SHA-256 padding: append `0x80`, zeros to 56 mod 64, then the length. -/
def shaPad (msg : List Nat) : List Nat :=
  let l := msg.length
  let zeros := (119 - l % 64) % 64
  msg ++ [0x80] ++ List.replicate zeros 0 ++ lenBytes (8 * l)

/-- Split a byte list into 64-byte chunks (fuel-driven for kernel
evaluability; the fuel is always sufficient). -/
def chunks64F : Nat → List Nat → List (List Nat)
  | 0, _ => []
  | _, [] => []
  | f + 1, l => l.take 64 :: chunks64F f (l.drop 64)

def chunks64 (l : List Nat) : List (List Nat) := chunks64F l.length l

/-- Big-endian 32-bit words from bytes. -/
def bytesToWords : List Nat → List Nat
  | b0 :: b1 :: b2 :: b3 :: rest =>
    (((b0 * 256 + b1) * 256 + b2) * 256 + b3) :: bytesToWords rest
  | _ => []

/-- One step of the message-schedule extension. -/
def scheduleStep (w : Array Nat) (i : Nat) : Array Nat :=
  let w15 := w.getD (i - 15) 0
  let w2 := w.getD (i - 2) 0
  let w16 := w.getD (i - 16) 0
  let w7 := w.getD (i - 7) 0
  let s0 := rotr 7 w15 ^^^ rotr 18 w15 ^^^ (w15 >>> 3)
  let s1 := rotr 17 w2 ^^^ rotr 19 w2 ^^^ (w2 >>> 10)
  w.push (u32 (w16 + s0 + w7 + s1))

/-- The 64-entry message schedule for one block. -/
def buildSchedule (block : List Nat) : List Nat :=
  ((List.range 48).foldl (fun w j => scheduleStep w (j + 16))
    (bytesToWords block).toArray).toList

/-- One round of the SHA-256 compression function. -/
def compressStep (st : List Nat) (kw : Nat × Nat) : List Nat :=
  match st with
  | [a, b, c, d, e, f, g, h] =>
    let s1 := rotr 6 e ^^^ rotr 11 e ^^^ rotr 25 e
    let ch := (e &&& f) ^^^ (bnot32 e &&& g)
    let t1 := u32 (h + s1 + ch + kw.1 + kw.2)
    let s0 := rotr 2 a ^^^ rotr 13 a ^^^ rotr 22 a
    let maj := (a &&& b) ^^^ (a &&& c) ^^^ (b &&& c)
    let t2 := u32 (s0 + maj)
    [u32 (t1 + t2), a, b, c, u32 (d + t1), e, f, g]
  | _ => st

/-- Process one 64-byte block. -/
def processBlock (h : List Nat) (block : List Nat) : List Nat :=
  let st := (shaK.zip (buildSchedule block)).foldl compressStep h
  (h.zip st).map fun p => u32 (p.1 + p.2)

/-- SHA-256 of a byte list, as eight 32-bit words. -/
def sha256Words (msg : List Nat) : List Nat :=
  (chunks64 (shaPad msg)).foldl processBlock shaH0

/-- Lower-case hex digit. -/
def hexDigit (n : Nat) : Char :=
  if n < 10 then Char.ofNat (48 + n) else Char.ofNat (87 + n)

/-- Eight hex digits of a 32-bit word. -/
def wordHex (w : Nat) : List Char :=
  (List.range 8).map fun i => hexDigit ((w >>> (4 * (7 - i))) % 16)

/-- UTF-8 encoding of one character. -/
def utf8Char (c : Char) : List Nat :=
  let n := c.toNat
  if n < 128 then [n]
  else if n < 2048 then [192 + n / 64, 128 + n % 64]
  else if n < 65536 then [224 + n / 4096, 128 + n / 64 % 64, 128 + n % 64]
  else [240 + n / 262144, 128 + n / 4096 % 64, 128 + n / 64 % 64, 128 + n % 64]

/-- UTF-8 bytes of a string. -/
def utf8Encode (cs : List Char) : List Nat := (cs.map utf8Char).flatten

/-- `createHash("sha256").update(s).digest("hex")`. -/
def sha256Hex (s : String) : String :=
  ⟨((sha256Words (utf8Encode s.data)).map wordHex).flatten⟩

/-! ## Data model (`src/collector/types.ts`) -/

/-- `FailureType` union. -/
inductive FailureType where
  | test | lint | build | typecheck | unknown
deriving DecidableEq

/-- The string value of a `FailureType` (TS union of string literals). -/
def FailureType.str : FailureType → String
  | .test => "test"
  | .lint => "lint"
  | .build => "build"
  | .typecheck => "typecheck"
  | .unknown => "unknown"

/-- `FailureClass` union. -/
inductive FailureClass where
  | deterministic | flaky | secrets | permissions
  | infra_outage | dependency_registry | unknown
deriving DecidableEq

/-- The string value of a `FailureClass`. -/
def FailureClass.str : FailureClass → String
  | .deterministic => "deterministic"
  | .flaky => "flaky"
  | .secrets => "secrets"
  | .permissions => "permissions"
  | .infra_outage => "infra_outage"
  | .dependency_registry => "dependency_registry"
  | .unknown => "unknown"

/-- `RoutingDecision` union. -/
inductive RoutingDecision where
  | fix_attempt | report_only | flake_workflow | escalate
deriving DecidableEq

/-- `EvidencePack` (optional fields are TS `?` fields). -/
structure EvidencePack where
  file : Option String := none
  line : Option String := none
  excerpt : Option String := none
  job : Option String := none
  step : Option String := none
deriving DecidableEq

/-- `FailedStep`. -/
structure FailedStep where
  stepName : String := ""
  conclusion : String := ""
  startedAt : String := ""
  completedAt : String := ""
deriving DecidableEq

/-- `FailedJob`. -/
structure FailedJob where
  jobId : Nat := 0
  jobName : String := ""
  failedSteps : List FailedStep := []
  logs : String := ""
deriving DecidableEq

/-- `FailureContext` (the fields consumed by the engine; defaults are a
Lean convenience for building concrete witnesses, not part of the TS
interface). -/
structure FailureContext where
  runId : Nat := 0
  repo : String := ""
  branch : String := ""
  sha : String := ""
  workflowName : String := ""
  failureType : FailureType := .unknown
  failureClass : FailureClass := .unknown
  routingDecision : RoutingDecision := .escalate
  failedCommand : String := ""
  errorSignature : String := ""
  relevantFiles : List String := []
  rawLogs : String := ""
  extractedErrors : List String := []
  evidence : Option EvidencePack := none
  changedFiles : List String := []
  recentCommits : List String := []
  fingerprint : String := ""
deriving DecidableEq

/-- `OwnerAssignmentSource` union. -/
inductive OwnerAssignmentSource where
  | codeowners | blame | team_map | last_commit | fallback | unknown
deriving DecidableEq

/-- `"high" | "medium" | "low"`. -/
inductive Confidence where
  | high | medium | low
deriving DecidableEq

/-- `OwnerAssignment`. -/
structure OwnerAssignment where
  owner : String
  source : OwnerAssignmentSource
  reason : String
  confidence : Confidence
  candidates : Option (List String) := none
  file : Option String := none
  line : Option String := none
deriving DecidableEq

/-! ## Configuration (`src/config/greenlit.config.ts`) -/

/-- `routing` section.  In the config the class/type lists are lists of
strings (the union values). -/
structure RoutingConfig where
  report_only : List String := ["secrets", "permissions", "infra_outage", "dependency_registry"]
  fix_attempt : List String := ["test", "lint", "typecheck", "build"]
  flake_workflow : List String := ["flaky"]
  max_attempts_per_signature : Nat := 2
deriving DecidableEq

/-- `signature_ledger` section. -/
structure SignatureLedgerConfig where
  path : String := "data/signatures.json"
  ttl_days : Nat := 30
deriving DecidableEq

/-- `owner_routing` section. -/
structure OwnerRoutingConfig where
  codeowners_paths : List String := ["CODEOWNERS", ".github/CODEOWNERS"]
  blame_depth : Int := 1
  team_map : List (String × String) := []
  fallback_owner : Option String := some "unassigned"
deriving DecidableEq

/-- `GreenlitConfig` (the sections the engine reads).  `owner_routing` is
optional because `owner-routing.ts` reads it with `?.`. -/
structure GreenlitConfig where
  routing : RoutingConfig := {}
  signature_ledger : SignatureLedgerConfig := {}
  owner_routing : Option OwnerRoutingConfig := none
deriving DecidableEq

/-! ## Signatures (`src/agent/signatures.ts`) -/

/-- `SignatureOutcome` union. -/
inductive SignatureOutcome where
  | fix | reportOnly | quarantine | failed
deriving DecidableEq

/-- The string value of a `SignatureOutcome`. -/
def SignatureOutcome.str : SignatureOutcome → String
  | .fix => "fix"
  | .reportOnly => "report-only"
  | .quarantine => "quarantine"
  | .failed => "failed"

/-- `SignatureRecord`. -/
structure SignatureRecord where
  signature : String
  attempts : Nat
  lastSeen : String
  lastOutcome : SignatureOutcome
  lastOwner : Option String := none
  lastResolution : Option String := none
  threadUrl : Option String := none
deriving DecidableEq

/-- `SignatureLedger`: a JS object (`Record<string, SignatureRecord>`)
modelled as an insertion-ordered association list with unique keys. -/
structure SignatureLedger where
  records : List (String × SignatureRecord)
deriving DecidableEq

/-- Object property lookup `records[k]`. -/
def lget {α : Type} : List (String × α) → String → Option α
  | [], _ => none
  | e :: es, k => if e.1 = k then some e.2 else lget es k

/-- `normalizeErrorSignature`, step 1: `replace(/\d+/g, "N")`.
`inRun` tracks whether the previous character was part of a digit run. -/
def replDigits (inRun : Bool) : List Char → List Char
  | [] => []
  | c :: cs =>
    if c.isDigit then (if inRun then [] else ['N']) ++ replDigits true cs
    else c :: replDigits false cs

/-- `[a-f0-9]` case-insensitively (`/0x[a-f0-9]+/gi`). -/
def isHexChar (c : Char) : Bool :=
  c.isDigit || ('a' ≤ c && c ≤ 'f') || ('A' ≤ c && c ≤ 'F')

/-- `normalizeErrorSignature`, step 2: `replace(/0x[a-f0-9]+/gi, "X")`.
Fuel-driven left-to-right scan; each step consumes at least one input
character, so `fuel = length` suffices. -/
def replHexF : Nat → List Char → List Char
  | 0, s => s
  | _ + 1, [] => []
  | f + 1, c :: cs =>
    if c == '0' then
      match cs with
      | x :: rest =>
        if (x == 'x' || x == 'X') &&
            (match rest with | d :: _ => isHexChar d | [] => false) then
          'X' :: replHexF f (rest.dropWhile isHexChar)
        else c :: replHexF f cs
      | [] => [c]
    else c :: replHexF f cs

def replHex (s : List Char) : List Char := replHexF s.length s

/-- Index of the last `'/'` in a character list, if any. -/
def lastSlashIdx (l : List Char) : Option Nat :=
  ((l.enum.filter fun p => p.2 == '/').getLast?).map Prod.fst

/-- `normalizeErrorSignature`, step 3: `replace(/\/[\w\-\.\/]+\//g, "/PATH/")`.
The greedy regex matches from a `'/'` through the last `'/'` of the
maximal `[\w\-\.\/]` run that follows it, provided at least one character
lies between the two slashes. -/
def replPathF : Nat → List Char → List Char
  | 0, s => s
  | _ + 1, [] => []
  | f + 1, c :: cs =>
    if c == '/' then
      match lastSlashIdx (cs.takeWhile isPathChar) with
      | some j =>
        if 1 ≤ j then
          '/' :: 'P' :: 'A' :: 'T' :: 'H' :: '/' :: replPathF f (cs.drop (j + 1))
        else c :: replPathF f cs
      | none => c :: replPathF f cs
    else c :: replPathF f cs

def replPath (s : List Char) : List Char := replPathF s.length s

/-- `normalizeErrorSignature`, step 4: `replace(/\s+/g, " ")`. -/
def collapseWs (inRun : Bool) : List Char → List Char
  | [] => []
  | c :: cs =>
    if isJsWs c then (if inRun then [] else [' ']) ++ collapseWs true cs
    else c :: collapseWs false cs

/-- `normalizeErrorSignature` from `signatures.ts`: digit runs to `N`,
hex addresses to `X`, slash-delimited path runs to `/PATH/`, whitespace
collapsed, trimmed, lower-cased — applied in exactly the source order. -/
def normalizeErrorSignature (signature : String) : String :=
  ⟨(trimChars (collapseWs false (replPath (replHex
      (replDigits false signature.data))))).map Char.toLower⟩

/-- The string joined and hashed by `computeSignature`. -/
def computePayload (context : FailureContext) : String :=
  String.intercalate "|"
    [context.repo,
     context.failureType.str,
     normalizeErrorSignature context.errorSignature,
     context.failedCommand,
     (context.evidence.bind (·.job)).getD "",
     (context.evidence.bind (·.step)).getD ""]

/-- `computeSignature` from `signatures.ts`. -/
def computeSignature (context : FailureContext) : String :=
  sha256Hex (computePayload context)

/-- Whether `pruneExpiredSignatures` keeps a record: its `lastSeen` must
parse (`Date.parse` not `NaN`) and not be older than the cutoff.
`parseTs` is the environment's `Date.parse` (in milliseconds; `none` is
`NaN`). -/
def keepRecord (parseTs : String → Option Int) (cutoff : Int)
    (r : SignatureRecord) : Bool :=
  match parseTs r.lastSeen with
  | none => false
  | some t => decide (cutoff ≤ t)

/-- `pruneExpiredSignatures`: deletes every record whose `lastSeen` fails
to parse or is older than `now - ttlDays` (in-place mutation modelled as
returning the new ledger).  `now` is the environment's `Date.now()`. -/
def pruneExpiredSignatures (parseTs : String → Option Int) (now : Int)
    (ledger : SignatureLedger) (ttlDays : Nat) : SignatureLedger :=
  let cutoff := now - (ttlDays : Int) * 86400000
  { records := ledger.records.filter fun e => keepRecord parseTs cutoff e.2 }

/-- The result object of `shouldAttemptSignature`. -/
structure AttemptDecision where
  allowed : Bool
  reason : Option String := none
  record : Option SignatureRecord := none
deriving DecidableEq

/-- `shouldAttemptSignature` from `signatures.ts`: prunes, then gates on
attempt count and prior outcome.  Returns the decision together with the
(pruned) ledger the source mutated in place. -/
def shouldAttemptSignature (parseTs : String → Option Int) (now : Int)
    (signature : String) (ledger : SignatureLedger)
    (config : GreenlitConfig) : AttemptDecision × SignatureLedger :=
  let pruned := pruneExpiredSignatures parseTs now ledger
    config.signature_ledger.ttl_days
  match lget pruned.records signature with
  | none => ({ allowed := true }, pruned)
  | some record =>
    if record.attempts ≥ config.routing.max_attempts_per_signature then
      ({ allowed := false,
         reason := some ("Signature " ++ takeChars 8 signature ++
           " exceeded max attempts (" ++ toString record.attempts ++ ")"),
         record := some record }, pruned)
    else if record.lastOutcome == .reportOnly ||
        record.lastOutcome == .quarantine then
      ({ allowed := false,
         reason := some ("Signature " ++ takeChars 8 signature ++
           " previously routed to " ++ record.lastOutcome.str),
         record := some record }, pruned)
    else
      ({ allowed := true, record := some record }, pruned)

/-- Modelled from the spec: `setSignatureThread` is imported by
`signatures.test.ts` but its definition is not part of the sources
available under `src/`.  Per the spec's `setThread(fingerprint, ledger,
threadUrl)`: a no-op when the fingerprint has no existing record (it does
not create one); otherwise it sets `threadUrl` without altering
`attempts` or `lastOutcome`. -/
def setSignatureThread (signature : String) (ledger : SignatureLedger)
    (threadUrl : String) : SignatureLedger :=
  { records := ledger.records.map fun e =>
      if e.1 = signature then (e.1, { e.2 with threadUrl := some threadUrl })
      else e }

/-! ## Policy router (`src/agent/routing.ts`) -/

/-- `routeFailure`: report-only classes, then flake classes, then
fix-attempt types, else escalate. -/
def routeFailure (context : FailureContext) (config : GreenlitConfig) :
    RoutingDecision :=
  if config.routing.report_only.contains context.failureClass.str then
    .report_only
  else if config.routing.flake_workflow.contains context.failureClass.str then
    .flake_workflow
  else if config.routing.fix_attempt.contains context.failureType.str then
    .fix_attempt
  else
    .escalate

/-! ## Evidence extractor (`src/collector/evidence.ts`)

`FILE_LINE_PATTERN` is
`/([^\s:]+?\.(?:[jt]sx?|py|go|rs|java|cs|cpp|c|rb|php|kt|swift|scala)):(\d+)(?::\d+)?/g`.
The matcher below implements exactly this regex (lazy stem, alternation
order, greedy optional column, `matchAll` resuming after each match). -/

/-- `[^\s:]` — a stem character. -/
def isStemChar (c : Char) : Bool := !isJsWs c && c != ':'

/-- The extension alternation, in regex order: `[jt]sx?` first (greedy
`x?`), then the literal alternatives. -/
def extOptions (s : List Char) : List (List Char × List Char) :=
  let lits := ["py", "go", "rs", "java", "cs", "cpp", "c", "rb", "php",
               "kt", "swift", "scala"]
  let jt :=
    match s with
    | c :: 's' :: 'x' :: rest =>
      if c == 'j' || c == 't' then
        [([c, 's', 'x'], rest), ([c, 's'], 'x' :: rest)]
      else []
    | c :: 's' :: rest =>
      if c == 'j' || c == 't' then [([c, 's'], rest)] else []
    | _ => []
  jt ++ lits.filterMap fun lit =>
    if lit.data.isPrefixOf s then some (lit.data, s.drop lit.length)
    else none

/-- `:(\d+)(?::\d+)?` — returns (line digits, text of the optional column
part, rest of the input). -/
def matchLineTail (s : List Char) : Option (List Char × List Char × List Char) :=
  match s with
  | ':' :: s1 =>
    let ds := s1.takeWhile Char.isDigit
    let s2 := s1.dropWhile Char.isDigit
    if ds.isEmpty then none
    else
      match s2 with
      | ':' :: s3 =>
        let cols := s3.takeWhile Char.isDigit
        if cols.isEmpty then some (ds, [], s2)
        else some (ds, ':' :: cols, s3.dropWhile Char.isDigit)
      | _ => some (ds, [], s2)
  | _ => none

/-- One regex match: (group 1 `file`, group 2 `line`, whole match text,
rest of the input after the match). -/
structure RegexHit where
  file : List Char
  line : List Char
  matchedText : List Char
  rest : List Char

/-- Try the lazy stem at a fixed start position: `acc` is the reversed
stem consumed so far; at each `'.'` the literal-dot reading is tried
first (lazy `+?`), and only if the remainder fails does the dot join the
stem. -/
def tryStem (acc : List Char) : List Char → Option RegexHit
  | [] => none
  | c :: s1 =>
    if c == '.' then
      (if acc.isEmpty then none
       else
         (extOptions s1).findSome? fun eo =>
           (matchLineTail eo.2).map fun tl =>
             let stem := acc.reverse
             let file := stem ++ '.' :: eo.1
             { file := file, line := tl.1,
               matchedText := file ++ ':' :: tl.1 ++ tl.2.1,
               rest := tl.2.2 }) <|>
      tryStem ('.' :: acc) s1
    else if isStemChar c then tryStem (c :: acc) s1
    else none

/-- All matches of `FILE_LINE_PATTERN` in one line, in `matchAll` order
(fuel-driven; each step consumes at least one character). -/
def scanLineF : Nat → List Char → List RegexHit
  | 0, _ => []
  | _ + 1, [] => []
  | f + 1, c :: cs =>
    match tryStem [] (c :: cs) with
    | some hit => hit :: scanLineF f hit.rest
    | none => scanLineF f cs

def fileLineMatches (line : List Char) : List RegexHit :=
  scanLineF line.length line

/-- The failure-keyword alternation `/(error|fail|failed|exception|traceback|panic)/gi`,
in regex order.  (`failed` is listed but every occurrence is already
consumed by the earlier alternative `fail`.) -/
def keywordAlts : List (List Char) :=
  ["error", "fail", "failed", "exception", "traceback", "panic"].map
    String.data

/-- Case-insensitive prefix test (ASCII lower-casing, as JS `/i`). -/
def prefixCI (needle s : List Char) : Bool :=
  needle.isPrefixOf (s.map Char.toLower)

/-- Count non-overlapping keyword matches, scanning left to right and
trying the alternatives in order (JS `String.match` with `/g`). -/
def countKeywordsF : Nat → List Char → Nat
  | 0, _ => 0
  | _ + 1, [] => 0
  | f + 1, c :: cs =>
    match keywordAlts.find? (fun k => prefixCI k (c :: cs)) with
    | some k => 1 + countKeywordsF f (cs.drop (k.length - 1))
    | none => countKeywordsF f cs

def countKeywords (s : List Char) : Nat := countKeywordsF s.length s

/-- `scoreEvidenceWindow`: 1 + keyword count in
`lines.slice(max(i-2,0), min(i+3, length)).join("\n")` — i.e. the window
from two lines before through two lines after line `i`. -/
def scoreEvidenceWindow (lines : List String) (index : Nat) : Nat :=
  let windowStart := index - 2
  let windowEnd := min (index + 3) lines.length
  let window :=
    String.intercalate "\n" ((lines.drop windowStart).take (windowEnd - windowStart))
  1 + countKeywords window.data

/-- The per-match record pushed by `findBestFileLineMatch` (`idx` is the
line index, kept here to state the selection property; the source closes
over it when computing the score). -/
structure FileLineMatch where
  file : String
  line : String
  matchedText : String
  score : Nat
  idx : Nat
deriving DecidableEq

/-- All matches over all lines, in scan order (line by line, left to
right), each scored by its line's window. -/
def collectMatches (lines : List String) : List FileLineMatch :=
  lines.enum.flatMap fun p =>
    (fileLineMatches p.2.data).map fun hit =>
      { file := ⟨hit.file⟩, line := ⟨hit.line⟩,
        matchedText := ⟨hit.matchedText⟩,
        score := scoreEvidenceWindow lines p.1, idx := p.1 }

/-- Stable insertion (descending by score).  The inserted element comes
from earlier in the original list than everything in the already-sorted
tail, so it is placed before the first element whose score is `≤` its
own — the behaviour of JS `Array.prototype.sort` (stable since ES2019)
with `(a, b) => b.score - a.score`. -/
def insertByScore (m : FileLineMatch) : List FileLineMatch → List FileLineMatch
  | [] => [m]
  | x :: xs =>
    if m.score ≥ x.score then m :: x :: xs else x :: insertByScore m xs

/-- Stable sort, descending by score. -/
def sortByScore : List FileLineMatch → List FileLineMatch
  | [] => []
  | x :: xs => insertByScore x (sortByScore xs)

/-- `findBestFileLineMatch`: all scored matches, stably sorted descending
by score; the head (if any) is the winner. -/
def findBestFileLineMatch (lines : List String) : Option FileLineMatch :=
  (sortByScore (collectMatches lines)).head?

/-- `extractExcerpt`: the window around the first line containing the
matched text, else the last ten lines. -/
def extractExcerpt (lines : List String) (matchedLine : Option String) :
    Option String :=
  if lines.isEmpty then none
  else
    match matchedLine with
    | some m =>
      match lines.findIdx? (fun line => strContains line m) with
      | some index =>
        let start := index - 5
        let stop := min (index + 6) lines.length
        some (String.intercalate "\n" ((lines.drop start).take (stop - start)))
      | none => some (String.intercalate "\n" (lines.drop (lines.length - 10)))
    | none => some (String.intercalate "\n" (lines.drop (lines.length - 10)))

/-- `buildEvidencePack` from `evidence.ts`.  (`if (excerpt)` keeps the
field unset when the excerpt string is empty.) -/
def buildEvidencePack (logs : String) (failedJobs : List FailedJob) :
    EvidencePack :=
  let logLines := (splitNl logs.data).map fun l => (⟨l⟩ : String)
  let bestMatch := findBestFileLineMatch logLines
  let excerpt := extractExcerpt logLines (bestMatch.map (·.matchedText))
  { file := bestMatch.map (·.file),
    line := bestMatch.map (·.line),
    excerpt := excerpt.bind fun e => if e = "" then none else some e,
    job := failedJobs.head?.map (·.jobName),
    step := failedJobs.head?.bind fun j => j.failedSteps.head?.map (·.stepName) }

/-! ## Failure-class classifier (`src/collector/types.ts`, `classifyFailureClass`) -/

/-- `a.*b` tail: does `b` occur before the next line terminator?
(JS `.` matches neither `\n` nor `\r`.) -/
def seqTail (b : List Char) : List Char → Bool
  | [] => b.isEmpty
  | c :: cs =>
    b.isPrefixOf (c :: cs) ||
      (c != '\n' && c != '\r' && seqTail b cs)

/-- `/a.*b/` on an already lower-cased string: an occurrence of `a`
followed, with no intervening line terminator, by an occurrence of `b`. -/
def containsSeq (a b : List Char) : List Char → Bool
  | [] => a.isEmpty && seqTail b []
  | c :: cs =>
    (a.isPrefixOf (c :: cs) && seqTail b ((c :: cs).drop a.length)) ||
      containsSeq a b cs

/-- Secrets/permission patterns (tested against the lower-cased log). -/
def secretsMatch (low : String) : Bool :=
  ["permission denied", "resource not accessible", "missing required secret",
   "unable to resolve credentials", "authentication failed",
   "401 unauthorized", "403 forbidden", "eacces"].any
      (fun p => strContains low p) ||
    containsSeq "secret ".data " not found".data low.data

/-- External-outage / infra patterns. -/
def infraMatch (low : String) : Bool :=
  ["429 too many requests", "503 service unavailable", "502 bad gateway",
   "etimedout", "econnrefused", "enotfound", "dns resolution failed",
   "network error", "rate limit exceeded", "github api rate"].any
    fun p => strContains low p

/-- Dependency-registry patterns. -/
def depRegistryMatch (low : String) : Bool :=
  ["npm err! 404", "npm err! 503", "checksum mismatch",
   "integrity check failed"].any (fun p => strContains low p) ||
  containsSeq "could not resolve".data "registry".data low.data ||
  containsSeq "failed to fetch".data "package".data low.data ||
  containsSeq "pypi".data "unavailable".data low.data ||
  containsSeq "crates.io".data "error".data low.data

/-- Flakiness patterns. -/
def flakyMatch (low : String) : Bool :=
  ["flaky", "intermittent", "race condition"].any
      (fun p => strContains low p) ||
    containsSeq "timeout".data "test".data low.data ||
    containsSeq "jest".data "exceeded timeout".data low.data

/-- `classifyFailureClass`: secrets, else infra outage, else dependency
registry, else flaky, else (the source's commented default)
`deterministic`.  The `jobs` argument is accepted but unused, as in the
source. -/
def classifyFailureClass (logs : String) (_jobs : List FailedJob) :
    FailureClass :=
  let lowerLogs : String := ⟨logs.data.map Char.toLower⟩
  if secretsMatch lowerLogs then .secrets
  else if infraMatch lowerLogs then .infra_outage
  else if depRegistryMatch lowerLogs then .dependency_registry
  else if flakyMatch lowerLogs then .flaky
  else .deterministic

/-! ## Owner resolver (`src/agent/owner-routing.ts`) -/

/-- Segment-stack step of node's `path.posix.normalize`: `.` is dropped,
`..` pops a non-`..` top (or is kept when ascending above a relative
root), other segments are pushed.  `allowAboveRoot` is `!isAbsolute`. -/
def normSegsStep (allowAboveRoot : Bool) (stack : List String) (seg : String) :
    List String :=
  if seg = "" || seg = "." then stack
  else if seg = ".." then
    match stack with
    | top :: rest => if top ≠ ".." then rest else
        if allowAboveRoot then ".." :: stack else stack
    | [] => if allowAboveRoot then [".."] else []
  else seg :: stack

/-- node `path.posix.normalize` (ASCII paths). -/
def posixNormalize (p : String) : String :=
  if p = "" then "."
  else
    let isAbs := p.data.head? == some '/'
    let trailing := p.data.getLast? == some '/'
    let segs := ((splitNl (p.data.map fun c => if c == '/' then '\n' else c)).map
      fun l => (⟨l⟩ : String))
    let stack := segs.foldl (normSegsStep (!isAbs)) []
    let body := String.intercalate "/" stack.reverse
    if body = "" then
      if isAbs then "/" else if trailing then "./" else "."
    else
      let body := if trailing then body ++ "/" else body
      if isAbs then "/" ++ body else body

/-- `normalizePath`: trim, backslashes to slashes, posix-normalize, strip
one leading `./`. -/
def normalizePath (filePath : String) : String :=
  let cleaned : String := ⟨(trimChars filePath.data).map
    fun c => if c == '\\' then '/' else c⟩
  let normalized := posixNormalize cleaned
  if "./".data.isPrefixOf normalized.data then ⟨normalized.data.drop 2⟩
  else normalized

/-- `[...new Set(list)]` — deduplicate keeping first occurrences. -/
def dedupFirst (seen : List String) : List String → List String
  | [] => []
  | x :: xs =>
    if seen.contains x then dedupFirst seen xs
    else x :: dedupFirst (x :: seen) xs

/-- `buildCandidateFiles`: evidence file first, then relevant files, then
changed files; `filter(Boolean)` drops absent/empty entries; normalise
and deduplicate. -/
def buildCandidateFiles (context : FailureContext) : List String :=
  let files :=
    ((match context.evidence.bind (·.file) with
      | some f => [f]
      | none => []) ++ context.relevantFiles ++ context.changedFiles).filter
      fun f => f ≠ ""
  dedupFirst [] ((files.map normalizePath).filter fun f => f ≠ "")

/-- Tokens of the compiled CODEOWNERS glob: literal character, `?` (any
character except a line terminator), `*` (`[^/]*`), `**` (`.*`). -/
inductive GlobTok where
  | lit (c : Char)
  | anyc
  | starSeg
  | starAny
deriving DecidableEq

/-- `globToRegex`: `**` to `.*`, `*` to `[^/]*`, `?` to `.`, everything
else taken literally (the source escapes regex metacharacters). -/
def globToToks : List Char → List GlobTok
  | [] => []
  | '*' :: '*' :: rest => .starAny :: globToToks rest
  | '*' :: rest => .starSeg :: globToToks rest
  | '?' :: rest => .anyc :: globToToks rest
  | c :: rest => .lit c :: globToToks rest

/-- Backtracking matcher for the compiled token list against a full
string (the regex is anchored with `$`, and with `^` when `anchored`).
Fuel-driven; `(toks+1)*(chars+1)` bounds the recursion depth. -/
def reMatchF : Nat → List GlobTok → List Char → Bool
  | 0, _, _ => false
  | _ + 1, [], [] => true
  | _ + 1, [], _ :: _ => false
  | f + 1, .lit c :: ts, s =>
    match s with
    | [] => false
    | d :: ds => c == d && reMatchF f ts ds
  | f + 1, .anyc :: ts, s =>
    match s with
    | [] => false
    | d :: ds => d != '\n' && d != '\r' && reMatchF f ts ds
  | f + 1, .starAny :: ts, s =>
    reMatchF f ts s ||
      (match s with
       | [] => false
       | _ :: ds => reMatchF f (.starAny :: ts) ds)
  | f + 1, .starSeg :: ts, s =>
    reMatchF f ts s ||
      (match s with
       | [] => false
       | d :: ds => d != '/' && reMatchF f (.starSeg :: ts) ds)

def reMatch (ts : List GlobTok) (s : List Char) : Bool :=
  reMatchF ((ts.length + 1) * (s.length + 1)) ts s

/-- The unanchored prefix `(^|.*\/)`: the body may match at the start or
immediately after any `'/'`. -/
def matchAfterSlash (ts : List GlobTok) : List Char → Bool
  | [] => false
  | c :: cs => (c == '/' && reMatch ts cs) || matchAfterSlash ts cs

/-- The compiled matcher of one CODEOWNERS pattern
(`codeownersPatternToRegExp`). -/
structure CompiledPattern where
  anchored : Bool
  toks : List GlobTok
deriving DecidableEq

/-- `codeownersPatternToRegExp`: a leading `/` anchors (and is stripped,
with all its repetitions); a trailing `/` appends `**`; then the glob is
compiled. -/
def codeownersPatternToMatcher (pattern : String) : CompiledPattern :=
  let cleaned := trimChars pattern.data
  let anchored := cleaned.head? == some '/'
  let cleaned := if anchored then cleaned.dropWhile (· == '/') else cleaned
  let cleaned :=
    if cleaned.getLast? == some '/' then cleaned ++ ['*', '*'] else cleaned
  { anchored := anchored, toks := globToToks cleaned }

/-- `regex.test(file)` for a compiled pattern. -/
def patternTest (cp : CompiledPattern) (file : String) : Bool :=
  if cp.anchored then reMatch cp.toks file.data
  else reMatch cp.toks file.data || matchAfterSlash cp.toks file.data

/-- `CodeownerRule`. -/
structure CodeownerRule where
  pattern : String
  owners : List String
  matcher : CompiledPattern
  sourcePath : String
  lineNumber : Nat
deriving DecidableEq

/-- Split on runs of whitespace, dropping empty pieces
(JS `split(/\s+/).filter(Boolean)` on trimmed input). -/
def splitWsF : Nat → List Char → List (List Char)
  | 0, _ => []
  | _ + 1, [] => []
  | f + 1, c :: cs =>
    if isJsWs c then splitWsF f (cs.dropWhile isJsWs)
    else
      let w := (c :: cs).takeWhile (fun d => !isJsWs d)
      w :: splitWsF f ((c :: cs).dropWhile fun d => !isJsWs d)

def splitWs (s : List Char) : List (List Char) := splitWsF s.length s

/-- `split(/\r?\n/)`: split on `'\n'`, then strip one trailing `'\r'`. -/
def splitCrLf (s : List Char) : List (List Char) :=
  (splitNl s).map fun l =>
    match l.getLast? with
    | some c => if c == '\r' then l.dropLast else l
    | none => l

/-- Parse one CODEOWNERS file's content into rules (`loadCodeowners`
inner loop): blank and `#` lines are skipped, as are lines without a
pattern or without owners. -/
def parseCodeownersContent (filePath : String) (content : String) :
    List CodeownerRule :=
  ((splitCrLf content.data).enum).filterMap fun p =>
    let raw := trimChars p.2
    if raw.isEmpty || raw.head? == some '#' then none
    else
      match splitWs raw with
      | [] => none
      | pat :: owners =>
        if owners.isEmpty then none
        else
          some { pattern := ⟨pat⟩,
                 owners := owners.map fun o => (⟨o⟩ : String),
                 matcher := codeownersPatternToMatcher ⟨pat⟩,
                 sourcePath := filePath,
                 lineNumber := p.1 + 1 }

/-- `loadCodeowners`: read each configured location (missing files are
skipped); `fsDocs` is the file system, a map from path to content. -/
def loadCodeowners (fsDocs : List (String × String)) (paths : List String) :
    List CodeownerRule :=
  let locations := if paths.isEmpty then ["CODEOWNERS", ".github/CODEOWNERS"]
    else paths
  locations.flatMap fun filePath =>
    match lget fsDocs filePath with
    | some content => parseCodeownersContent filePath content
    | none => []

/-- The inner loop of `findCodeownersMatch`: the last rule in order whose
matcher accepts the file. -/
def lastMatching (file : String) (rules : List CodeownerRule) :
    Option CodeownerRule :=
  rules.foldl (fun acc rule =>
    if patternTest rule.matcher file then some rule else acc) none

/-- `findCodeownersMatch`: first candidate file with any matching rule,
paired with the last rule that matched it. -/
def findCodeownersMatch : List String → List CodeownerRule →
    Option (CodeownerRule × String)
  | [], _ => none
  | f :: fs, rules =>
    match lastMatching f rules with
    | some rule => some (rule, f)
    | none => findCodeownersMatch fs rules

/-- The `git` environment: `blame file line` is the author/e-mail pair
extracted from a successful `git blame` porcelain call (`none` covers a
thrown `execSync` or a missing `author` field); `lastCommit file` is the
raw output of `git log -1 --format="%an <%ae>" -- file` (`none` for a
thrown call). -/
structure GitEnv where
  blame : String → Nat → Option (String × Option String)
  lastCommit : String → Option String

/-- Decimal value of a digit run (`parseInt(..., 10)` on a `\d+` match). -/
def digitsToNat (ds : List Char) : Nat :=
  ds.foldl (fun acc c => acc * 10 + (c.toNat - 48)) 0

/-- `parseLineNumber`: the first digit run of the evidence line string. -/
def parseLineNumber (line : String) : Option Nat :=
  match (line.data.dropWhile fun c => !c.isDigit).takeWhile Char.isDigit with
  | [] => none
  | ds => some (digitsToNat ds)

/-- `buildLineCandidates`: the line itself, then `± offset` for
`offset = 1 .. depth-1` (lower candidates only when positive). -/
def buildLineCandidates (lineNumber : Nat) (depth : Int) : List Nat :=
  lineNumber :: (List.range (depth - 1).toNat).flatMap fun i =>
    let offset := i + 1
    (if lineNumber - offset > 0 then [lineNumber - offset] else []) ++
      [lineNumber + offset]

/-- `resolveOwnerFromBlame`: needs a (truthy) evidence file and line, a
parsable non-zero line number and positive depth; tries each candidate
line until a blame lookup yields an author. -/
def resolveOwnerFromBlame (env : GitEnv) (context : FailureContext)
    (depth : Int) : Option (String × String × String) :=
  match context.evidence.bind (·.file), context.evidence.bind (·.line) with
  | some file, some lineRaw =>
    if file = "" || lineRaw = "" then none
    else
      match parseLineNumber lineRaw with
      | none => none
      | some lineNumber =>
        if lineNumber = 0 || depth ≤ 0 then none
        else
          (buildLineCandidates lineNumber depth).findSome? fun candidateLine =>
            match env.blame file candidateLine with
            | none => none
            | some (author, email) =>
              let owner := match email with
                | some e => author ++ " " ++ e
                | none => author
              some (owner, file, toString candidateLine)
  | _, _ => none

/-- `resolveOwnerFromTeamMap`: longest normalised directory prefix (with
one trailing slash stripped) that prefixes a candidate file; the source
keeps the first strictly-longest hit scanning files then prefixes. -/
def resolveOwnerFromTeamMap (files : List String)
    (config : GreenlitConfig) : Option (String × String × String) :=
  let map := match config.owner_routing with
    | some oc => oc.team_map
    | none => []
  if map.isEmpty then none
  else
    (files.flatMap fun file =>
      map.filterMap fun pr =>
        let npfx : String := ⟨
          match (normalizePath pr.1).data.getLast? with
          | some c =>
            if c == '/' then (normalizePath pr.1).data.dropLast
            else (normalizePath pr.1).data
          | none => []⟩
        if npfx = "" then none
        else if npfx.data.isPrefixOf file.data then
          some (pr.2, npfx, file)
        else none).foldl
      (fun best hit =>
        match best with
        | none => some hit
        | some b => if b.2.1.length < hit.2.1.length then some hit else best)
      none

/-- `resolveOwnerFromLastCommit`: first candidate file whose last-commit
lookup succeeds with non-empty trimmed output. -/
def resolveOwnerFromLastCommit (env : GitEnv) (files : List String) :
    Option (String × String) :=
  files.findSome? fun file =>
    match env.lastCommit file with
    | none => none
    | some out =>
      let t : String := ⟨trimChars out.data⟩
      if t = "" then none else some (t, file)

/-- `resolveOwnerAssignment` from `owner-routing.ts`: CODEOWNERS, then
blame, then team map, then last-commit author, then the configured
fallback owner.  `fsDocs` models the file system for CODEOWNERS sources
and `env` the `git` subprocess calls. -/
def resolveOwnerAssignment (env : GitEnv) (fsDocs : List (String × String))
    (context : FailureContext) (config : GreenlitConfig) : OwnerAssignment :=
  let candidateFiles := buildCandidateFiles context
  let codeowners := loadCodeowners fsDocs
    (match config.owner_routing with
     | some oc => oc.codeowners_paths
     | none => [])
  let blameDepth := match config.owner_routing with
    | some oc => oc.blame_depth
    | none => 1
  match findCodeownersMatch candidateFiles codeowners with
  | some (rule, file) =>
    { owner := String.intercalate " " rule.owners,
      source := .codeowners,
      reason := "CODEOWNERS match: " ++ rule.pattern ++ " (" ++
        rule.sourcePath ++ ":" ++ toString rule.lineNumber ++ ")",
      confidence := .high,
      candidates := some rule.owners,
      file := some file }
  | none =>
    match resolveOwnerFromBlame env context blameDepth with
    | some (owner, file, line) =>
      { owner := owner, source := .blame,
        reason := "git blame at " ++ file ++ ":" ++ line,
        confidence := .medium, file := some file, line := some line }
    | none =>
      match resolveOwnerFromTeamMap candidateFiles config with
      | some (owner, pfx, file) =>
        { owner := owner, source := .team_map,
          reason := "team map match: " ++ pfx,
          confidence := .low, file := some file }
      | none =>
        match resolveOwnerFromLastCommit env candidateFiles with
        | some (owner, file) =>
          { owner := owner, source := .last_commit,
            reason := "last commit on " ++ file,
            confidence := .low, file := some file }
        | none =>
          { owner := jsOrStr
              (config.owner_routing.bind (·.fallback_owner)) "unassigned",
            source := .fallback,
            reason := "fallback owner",
            confidence := .low }

/-! ## Helper lemmas about association-list lookup -/

theorem lget_eq_none_iff {α : Type} (l : List (String × α)) (k : String) :
    lget l k = none ↔ ∀ e ∈ l, e.1 ≠ k := by
  induction l with
  | nil => simp [lget]
  | cons e es ih =>
    by_cases h : e.1 = k <;> simp [lget, h, ih]

theorem lget_filter_none {α : Type} (p : String × α → Bool)
    (l : List (String × α)) (k : String) (h : lget l k = none) :
    lget (l.filter p) k = none := by
  rw [lget_eq_none_iff] at h ⊢
  intro e he
  exact h e (List.mem_of_mem_filter he)

theorem lget_filter_snd {α : Type} (q : α → Bool) (l : List (String × α))
    (k : String) (hnd : (l.map Prod.fst).Nodup) :
    lget (l.filter fun e => q e.2) k =
      match lget l k with
      | none => none
      | some v => if q v then some v else none := by
  induction l with
  | nil => simp [lget]
  | cons e es ih =>
    simp only [List.map_cons, List.nodup_cons] at hnd
    by_cases h : e.1 = k
    · by_cases hq : q e.2
      · simp [lget, List.filter_cons, h, hq]
      · have hnone : lget es k = none := by
          rw [lget_eq_none_iff]
          intro x hx hxk
          have hx1 : x.1 = e.1 := hxk.trans h.symm
          exact hnd.1 (hx1 ▸ List.mem_map_of_mem Prod.fst hx)
        simp [lget, List.filter_cons, h, hq, lget_filter_none _ _ _ hnone]
    · by_cases hq : q e.2 <;>
        simp [lget, List.filter_cons, h, hq, ih hnd.2]

theorem lget_map_update {α : Type} (l : List (String × α)) (k : String)
    (f : α → α) :
    lget (l.map fun e => if e.1 = k then (e.1, f e.2) else e) k =
      (lget l k).map f := by
  induction l with
  | nil => simp [lget]
  | cons e es ih =>
    by_cases h : e.1 = k <;> simp [lget, h, ih]

/-! ## Claim theorems -/

/-- **C2.** `shouldAttemptSignature` first prunes, then: no record for the
fingerprint means allowed; a record with `attempts ≥
max_attempts_per_signature` means blocked with a reason naming the
attempt count; otherwise a record whose `lastOutcome` is report-only or
quarantine means blocked with a reason naming the prior outcome
(regardless of the attempt count being below the maximum); otherwise
allowed — and whenever a record exists it is returned alongside the
decision. -/
theorem c2_shouldAttempt_gating (parseTs : String → Option Int) (now : Int)
    (sig : String) (ledger : SignatureLedger) (config : GreenlitConfig) :
    (lget (pruneExpiredSignatures parseTs now ledger
        config.signature_ledger.ttl_days).records sig = none →
      (shouldAttemptSignature parseTs now sig ledger config).1 =
        { allowed := true }) ∧
    (∀ r, lget (pruneExpiredSignatures parseTs now ledger
        config.signature_ledger.ttl_days).records sig = some r →
      r.attempts ≥ config.routing.max_attempts_per_signature →
      (shouldAttemptSignature parseTs now sig ledger config).1 =
        { allowed := false,
          reason := some ("Signature " ++ takeChars 8 sig ++
            " exceeded max attempts (" ++ toString r.attempts ++ ")"),
          record := some r }) ∧
    (∀ r, lget (pruneExpiredSignatures parseTs now ledger
        config.signature_ledger.ttl_days).records sig = some r →
      r.attempts < config.routing.max_attempts_per_signature →
      (r.lastOutcome = .reportOnly ∨ r.lastOutcome = .quarantine) →
      (shouldAttemptSignature parseTs now sig ledger config).1 =
        { allowed := false,
          reason := some ("Signature " ++ takeChars 8 sig ++
            " previously routed to " ++ r.lastOutcome.str),
          record := some r }) ∧
    (∀ r, lget (pruneExpiredSignatures parseTs now ledger
        config.signature_ledger.ttl_days).records sig = some r →
      r.attempts < config.routing.max_attempts_per_signature →
      r.lastOutcome ≠ .reportOnly → r.lastOutcome ≠ .quarantine →
      (shouldAttemptSignature parseTs now sig ledger config).1 =
        { allowed := true, record := some r }) := by
  refine ⟨?_, ?_, ?_, ?_⟩
  · intro h
    simp [shouldAttemptSignature, h]
  · intro r h hge
    simp [shouldAttemptSignature, h, hge, Nat.not_lt.mpr hge]
  · intro r h hlt hout
    have hnot : ¬ r.attempts ≥ config.routing.max_attempts_per_signature :=
      Nat.not_le.mpr hlt
    rcases hout with hout | hout <;>
      simp [shouldAttemptSignature, h, hnot, hout, beq_iff_eq]
  · intro r h hlt h1 h2
    have hnot : ¬ r.attempts ≥ config.routing.max_attempts_per_signature :=
      Nat.not_le.mpr hlt
    simp [shouldAttemptSignature, h, hnot, beq_iff_eq, h1, h2]

/-- Witness for C2: two one-record ledgers exercising the
attempts-exhausted and prior-outcome blocked branches. -/
theorem c2_shouldAttempt_gating_witness :
    (shouldAttemptSignature (fun _ => some 0) 0 "sig1"
        ⟨[("sig1", ⟨"sig1", 3, "t", .fix, none, none, none⟩)]⟩ { }).1 =
      ⟨false, some "Signature sig1 exceeded max attempts (3)",
        some ⟨"sig1", 3, "t", .fix, none, none, none⟩⟩ ∧
    (shouldAttemptSignature (fun _ => some 0) 0 "sig2"
        ⟨[("sig2", ⟨"sig2", 1, "t", .quarantine, none, none, none⟩)]⟩ { }).1 =
      ⟨false, some "Signature sig2 previously routed to quarantine",
        some ⟨"sig2", 1, "t", .quarantine, none, none, none⟩⟩ := by
  constructor
  · exact (c2_shouldAttempt_gating (fun _ => some 0) 0 "sig1" _ _).2.1
      ⟨"sig1", 3, "t", .fix, none, none, none⟩ (by decide) (by decide)
  · exact (c2_shouldAttempt_gating (fun _ => some 0) 0 "sig2" _ _).2.2.1
      ⟨"sig2", 1, "t", .quarantine, none, none, none⟩ (by decide) (by decide)
      (Or.inr (by decide))

/-- **C3.** `pruneExpiredSignatures` removes exactly the records whose
`lastSeen` fails to parse or parses strictly before `now - ttlDays`
(other records survive unchanged), and a pruned fingerprint is
subsequently allowed by `shouldAttemptSignature`. -/
theorem c3_prune_expired (parseTs : String → Option Int) (now : Int)
    (ledger : SignatureLedger) (ttlDays : Nat)
    (hnd : (ledger.records.map Prod.fst).Nodup) :
    (∀ fp r, lget ledger.records fp = some r →
      (lget (pruneExpiredSignatures parseTs now ledger ttlDays).records fp =
          none ↔
        (parseTs r.lastSeen = none ∨
          ∃ t, parseTs r.lastSeen = some t ∧
            t < now - (ttlDays : Int) * 86400000))) ∧
    (∀ fp r,
      lget (pruneExpiredSignatures parseTs now ledger ttlDays).records fp =
          some r ↔
        (lget ledger.records fp = some r ∧
          keepRecord parseTs (now - (ttlDays : Int) * 86400000) r = true)) ∧
    (∀ fp config,
      lget (pruneExpiredSignatures parseTs now ledger ttlDays).records fp =
          none →
      (shouldAttemptSignature parseTs now fp
        (pruneExpiredSignatures parseTs now ledger ttlDays) config).1 =
        { allowed := true }) := by
  have hfilter := fun fp =>
    lget_filter_snd (keepRecord parseTs (now - (ttlDays : Int) * 86400000))
      ledger.records fp hnd
  refine ⟨?_, ?_, ?_⟩
  · intro fp r h
    rw [pruneExpiredSignatures]
    simp only [hfilter fp, h]
    by_cases hk : keepRecord parseTs (now - (ttlDays : Int) * 86400000) r
    · simp only [hk, if_true]
      constructor
      · intro hc; exact absurd hc (by simp)
      · intro hc
        exfalso
        unfold keepRecord at hk
        rcases hc with hc | ⟨t, ht, hlt⟩
        · simp [hc] at hk
        · simp [ht] at hk
          omega
    · simp only [hk, if_false]
      constructor
      · intro _
        unfold keepRecord at hk
        cases hp : parseTs r.lastSeen with
        | none => exact Or.inl rfl
        | some t =>
          refine Or.inr ⟨t, rfl, ?_⟩
          simp [hp] at hk
          omega
      · intro _; rfl
  · intro fp r
    rw [pruneExpiredSignatures]
    simp only [hfilter fp]
    cases h : lget ledger.records fp with
    | none => simp
    | some v =>
      dsimp only
      cases hkk : keepRecord parseTs (now - (ttlDays : Int) * 86400000) v with
      | true =>
        rw [if_pos rfl]
        constructor
        · intro hvr
          exact ⟨hvr, (Option.some_inj.mp hvr) ▸ hkk⟩
        · exact And.left
      | false =>
        rw [if_neg (by simp)]
        constructor
        · intro hc; cases hc
        · intro hc
          have hvr := Option.some_inj.mp hc.1
          subst hvr
          exact absurd hc.2 (by simp [hkk])
  · intro fp config h
    have h2 : lget (pruneExpiredSignatures parseTs now
        (pruneExpiredSignatures parseTs now ledger ttlDays)
        config.signature_ledger.ttl_days).records fp = none := by
      apply lget_filter_none
      exact h
    simp [shouldAttemptSignature, pruneExpiredSignatures] at h2 ⊢
    simp [h2]

/-- Witness for C3 at a concrete ledger: the stale record (30-day TTL,
`lastSeen` parsing to a time before the cutoff) is pruned and its
fingerprint is allowed again. -/
theorem c3_prune_expired_witness :
    lget (pruneExpiredSignatures
        (fun s => if s = "old" then some 0 else none) 2592000001
        ⟨[("fp", ⟨"fp", 1, "old", .fix, none, none, none⟩)]⟩ 30).records
      "fp" = none ∧
    (shouldAttemptSignature (fun s => if s = "old" then some 0 else none)
      2592000001 "fp"
      (pruneExpiredSignatures
        (fun s => if s = "old" then some 0 else none) 2592000001
        ⟨[("fp", ⟨"fp", 1, "old", .fix, none, none, none⟩)]⟩ 30) { }).1 =
      { allowed := true } := by
  have h := c3_prune_expired (fun s => if s = "old" then some 0 else none)
    2592000001 ⟨[("fp", ⟨"fp", 1, "old", .fix, none, none, none⟩)]⟩ 30
    (by decide)
  have habs :=
    (h.1 "fp" ⟨"fp", 1, "old", .fix, none, none, none⟩ (by decide)).mpr
      (Or.inr ⟨0, by decide, by decide⟩)
  exact ⟨habs, h.2.2 "fp" { } habs⟩

theorem map_id_of_no_key {α : Type} (l : List (String × α)) (k : String)
    (f : α → α) (h : ∀ e ∈ l, e.1 ≠ k) :
    (l.map fun e => if e.1 = k then (e.1, f e.2) else e) = l := by
  induction l with
  | nil => rfl
  | cons e es ih =>
    simp only [List.map_cons]
    rw [if_neg (h e (List.mem_cons_self e es)),
      ih fun x hx => h x (List.mem_cons_of_mem e hx)]

/-- **C8.** `setSignatureThread` on an unknown fingerprint is a no-op
(no record is created and the record count is unchanged); on a known
fingerprint it sets `threadUrl` while leaving `attempts` and
`lastOutcome` untouched.  (`setSignatureThread` is spec-modelled: only
its tests ship under `src/`.) -/
theorem c8_setThread (sig : String) (ledger : SignatureLedger)
    (url : String) :
    (lget ledger.records sig = none →
      setSignatureThread sig ledger url = ledger) ∧
    (setSignatureThread sig ledger url).records.length =
      ledger.records.length ∧
    (∀ r, lget ledger.records sig = some r →
      lget (setSignatureThread sig ledger url).records sig =
        some { r with threadUrl := some url } ∧
      ∃ r', lget (setSignatureThread sig ledger url).records sig = some r' ∧
        r'.threadUrl = some url ∧ r'.attempts = r.attempts ∧
        r'.lastOutcome = r.lastOutcome) := by
  refine ⟨?_, ?_, ?_⟩
  · intro h
    rw [lget_eq_none_iff] at h
    unfold setSignatureThread
    cases ledger with
    | mk records =>
      simp only [SignatureLedger.mk.injEq]
      exact map_id_of_no_key records sig
        (fun v => { v with threadUrl := some url }) h
  · simp [setSignatureThread]
  · intro r h
    have hm := lget_map_update ledger.records sig
      (fun v => { v with threadUrl := some url })
    have hmain : lget (setSignatureThread sig ledger url).records sig =
        some { r with threadUrl := some url } := by
      rw [setSignatureThread, hm, h]; rfl
    exact ⟨hmain, { r with threadUrl := some url }, hmain, rfl, rfl, rfl⟩

/-- Witness for C8: an empty ledger is untouched; a one-record ledger
gets `threadUrl` set with `attempts`/`lastOutcome` preserved. -/
theorem c8_setThread_witness :
    setSignatureThread "missing" ⟨[]⟩ "https://example.com/thread" = ⟨[]⟩ ∧
    lget (setSignatureThread "sig"
        ⟨[("sig", ⟨"sig", 2, "2025-01-01", .fix, none, none, none⟩)]⟩
        "https://example.com/thread").records "sig" =
      some ⟨"sig", 2, "2025-01-01", .fix, none, none,
        some "https://example.com/thread"⟩ := by
  constructor
  · exact (c8_setThread "missing" ⟨[]⟩ "https://example.com/thread").1 rfl
  · exact ((c8_setThread "sig"
      ⟨[("sig", ⟨"sig", 2, "2025-01-01", .fix, none, none, none⟩)]⟩
      "https://example.com/thread").2.2
      ⟨"sig", 2, "2025-01-01", .fix, none, none, none⟩ (by decide)).1

/-- **C4.** `routeFailure` checks the report-only class list, then the
flake class list, then the fix-attempt type list, else escalates; in
particular a flaky/test failure (with `test` in the fix-attempt set,
`flaky` in the flake set and not in the report-only set) routes to
`flake_workflow`, not `fix_attempt`. -/
theorem c4_routeFailure_precedence (context : FailureContext)
    (config : GreenlitConfig) :
    (config.routing.report_only.contains context.failureClass.str = true →
      routeFailure context config = .report_only) ∧
    (config.routing.report_only.contains context.failureClass.str = false →
      config.routing.flake_workflow.contains context.failureClass.str = true →
      routeFailure context config = .flake_workflow) ∧
    (config.routing.report_only.contains context.failureClass.str = false →
      config.routing.flake_workflow.contains context.failureClass.str = false →
      config.routing.fix_attempt.contains context.failureType.str = true →
      routeFailure context config = .fix_attempt) ∧
    (config.routing.report_only.contains context.failureClass.str = false →
      config.routing.flake_workflow.contains context.failureClass.str = false →
      config.routing.fix_attempt.contains context.failureType.str = false →
      routeFailure context config = .escalate) ∧
    (context.failureClass = .flaky → context.failureType = .test →
      config.routing.fix_attempt.contains "test" = true →
      config.routing.flake_workflow.contains "flaky" = true →
      config.routing.report_only.contains "flaky" = false →
      routeFailure context config = .flake_workflow) := by
  refine ⟨?_, ?_, ?_, ?_, ?_⟩
  · intro h1; simp at h1; simp [routeFailure, h1]
  · intro h1 h2; simp at h1 h2; simp [routeFailure, h1, h2]
  · intro h1 h2 h3; simp at h1 h2 h3; simp [routeFailure, h1, h2, h3]
  · intro h1 h2 h3; simp at h1 h2 h3; simp [routeFailure, h1, h2, h3]
  · intro hc ht h1 h2 h3
    simp at h1 h2 h3
    simp [routeFailure, hc, ht, FailureClass.str, FailureType.str, h1, h2, h3]

/-- Witness for C4: the default routing configuration sends a
flaky/test failure to the flake workflow. -/
theorem c4_routeFailure_precedence_witness :
    routeFailure { failureClass := .flaky, failureType := .test } { } =
      .flake_workflow := by
  exact (c4_routeFailure_precedence
      { failureClass := .flaky, failureType := .test } { }).2.2.2.2
    rfl rfl (by decide) (by decide) (by decide)

/-- Counterexample for **C7**: on a log matched by no failure-class
pattern set the classifier returns `deterministic`, not the claimed
`unknown`. -/
theorem c7_default_counterexample :
    classifyFailureClass "All checks completed" [] = .deterministic ∧
    classifyFailureClass "All checks completed" [] ≠ .unknown := by
  constructor <;> decide

/-- **C7 (amended).** When no failure-class pattern set (secrets,
external outage, package registry, flakiness) matches, the classifier
assigns `failureClass = deterministic` — the source's default — rather
than `unknown`. -/
theorem c7_default_deterministic (logs : String) (jobs : List FailedJob) :
    secretsMatch ⟨logs.data.map Char.toLower⟩ = false →
    infraMatch ⟨logs.data.map Char.toLower⟩ = false →
    depRegistryMatch ⟨logs.data.map Char.toLower⟩ = false →
    flakyMatch ⟨logs.data.map Char.toLower⟩ = false →
    classifyFailureClass logs jobs = .deterministic := by
  intro h1 h2 h3 h4
  simp [classifyFailureClass, h1, h2, h3, h4]

/-- Witness for the amended C7 at a concrete log. -/
theorem c7_default_deterministic_witness :
    classifyFailureClass "All checks completed" [] = .deterministic :=
  c7_default_deterministic "All checks completed" []
    (by decide) (by decide) (by decide) (by decide)

/-- **C10.** The hashed payload joins fields with an unescaped `"|"`, so
field boundaries can shift: `failedCommand "a|b", job "j"` and
`failedCommand "a", job "b|j"` (all other fields equal) yield the same
payload and hence the same digest. -/
theorem c10_delimiter_collision :
    (({ repo := "octo/app", failureType := .test, errorSignature := "boom",
        failedCommand := "a|b",
        evidence := some { job := some "j", step := some "k" } } :
          FailureContext)).failedCommand ≠
      (({ repo := "octo/app", failureType := .test, errorSignature := "boom",
          failedCommand := "a",
          evidence := some { job := some "b|j", step := some "k" } } :
            FailureContext)).failedCommand ∧
    (({ repo := "octo/app", failureType := .test, errorSignature := "boom",
        failedCommand := "a|b",
        evidence := some { job := some "j", step := some "k" } } :
          FailureContext)).evidence ≠
      (({ repo := "octo/app", failureType := .test, errorSignature := "boom",
          failedCommand := "a",
          evidence := some { job := some "b|j", step := some "k" } } :
            FailureContext)).evidence ∧
    computeSignature
        { repo := "octo/app", failureType := .test, errorSignature := "boom",
          failedCommand := "a|b",
          evidence := some { job := some "j", step := some "k" } } =
      computeSignature
        { repo := "octo/app", failureType := .test, errorSignature := "boom",
          failedCommand := "a",
          evidence := some { job := some "b|j", step := some "k" } } := by
  refine ⟨by decide, by decide, ?_⟩
  unfold computeSignature
  have h : computePayload
      { repo := "octo/app", failureType := .test, errorSignature := "boom",
        failedCommand := "a|b",
        evidence := some { job := some "j", step := some "k" } } =
      computePayload
      { repo := "octo/app", failureType := .test, errorSignature := "boom",
        failedCommand := "a",
        evidence := some { job := some "b|j", step := some "k" } } := by
    decide
  rw [h]

/-- **C1 is violated by the code** (the claim itself matches the source
comments' intent): because `normalizeErrorSignature` replaces digit runs
*before* the hex-address rule, the leading `0` of `0x…` is already gone
and `/0x[a-f0-9]+/gi` can never fire, so two contexts identical except
for a hex address in the error signature get different digests. -/
theorem c1_hex_normalization_failure :
    normalizeErrorSignature "Error at 0xdeadbeef" = "error at nxdeadbeef" ∧
    normalizeErrorSignature "Error at 0xcafebabe" = "error at nxcafebabe" ∧
    computeSignature
        { repo := "octo/app", failureType := .test,
          errorSignature := "Error at 0xdeadbeef", failedCommand := "npm test",
          evidence := some { job := some "build", step := some "tests" } } ≠
      computeSignature
        { repo := "octo/app", failureType := .test,
          errorSignature := "Error at 0xcafebabe", failedCommand := "npm test",
          evidence := some { job := some "build", step := some "tests" } } := by
  refine ⟨by decide, by decide, ?_⟩
  decide

/-! ### C5: CODEOWNERS resolution -/

/-- The claim's description of CODEOWNERS matching: for the first
candidate file (in candidate order) with any matching rule, the last
matching rule in rule order (later lines override earlier ones). -/
def findCodeownersMatchSpec (files : List String)
    (rules : List CodeownerRule) : Option (CodeownerRule × String) :=
  files.findSome? fun f =>
    (rules.reverse.find? fun r => patternTest r.matcher f).map fun r => (r, f)

theorem foldl_keepLast_eq (p : CodeownerRule → Bool) :
    ∀ (rules : List CodeownerRule) (acc : Option CodeownerRule),
      rules.foldl (fun a r => if p r then some r else a) acc =
        (rules.reverse.find? p).or acc := by
  intro rules
  induction rules with
  | nil => intro acc; simp
  | cons r rs ih =>
    intro acc
    simp only [List.foldl_cons, ih, List.reverse_cons, List.find?_append]
    cases h : rs.reverse.find? p with
    | some x => simp [Option.or]
    | none =>
      by_cases hp : p r <;> simp [List.find?, hp, Option.or]

theorem lastMatching_eq (file : String) (rules : List CodeownerRule) :
    lastMatching file rules =
      rules.reverse.find? fun r => patternTest r.matcher file := by
  rw [lastMatching, foldl_keepLast_eq]
  cases rules.reverse.find? fun r => patternTest r.matcher file <;> rfl

/-- **C5.** `findCodeownersMatch` returns, for the first candidate file
with any matching rule, the last matching rule in rule order; concretely,
with `src/* @team-a` on line 1 and `src/foo.ts @team-b` on line 2 of a
CODEOWNERS file, owner resolution for evidence file `src/foo.ts` yields
`@team-b` with source `codeowners` and confidence `high`. -/
theorem c5_codeowners_last_match_wins :
    (∀ (files : List String) (rules : List CodeownerRule),
      findCodeownersMatch files rules = findCodeownersMatchSpec files rules) ∧
    (resolveOwnerAssignment ⟨fun _ _ => none, fun _ => none⟩
        [("CODEOWNERS", "src/* @team-a\nsrc/foo.ts @team-b")]
        { evidence := some { file := some "src/foo.ts" } }
        { owner_routing := some { } }).owner = "@team-b" ∧
    (resolveOwnerAssignment ⟨fun _ _ => none, fun _ => none⟩
        [("CODEOWNERS", "src/* @team-a\nsrc/foo.ts @team-b")]
        { evidence := some { file := some "src/foo.ts" } }
        { owner_routing := some { } }).source = .codeowners ∧
    (resolveOwnerAssignment ⟨fun _ _ => none, fun _ => none⟩
        [("CODEOWNERS", "src/* @team-a\nsrc/foo.ts @team-b")]
        { evidence := some { file := some "src/foo.ts" } }
        { owner_routing := some { } }).confidence = .high := by
  refine ⟨?_, by decide, by decide, by decide⟩
  intro files rules
  induction files with
  | nil => rfl
  | cons f fs ih =>
    rw [findCodeownersMatch, lastMatching_eq, findCodeownersMatchSpec,
      List.findSome?_cons]
    cases h : rules.reverse.find? fun r => patternTest r.matcher f with
    | some rule => rfl
    | none => exact ih

/-! ### C9: the fallback owner tier -/

/-- **C9.** When the CODEOWNERS, blame, team-map and last-commit tiers
all produce no result, `resolveOwnerAssignment` returns the configured
fallback owner — the literal `"unassigned"` when `owner_routing` is not
configured — with source `fallback`, confidence `low` and reason
`"fallback owner"`.  Totality (no absent result, no exception) is
expressed by the return type: the function is a total function into
`OwnerAssignment`. -/
theorem c9_fallback_assignment (env : GitEnv)
    (fsDocs : List (String × String)) (context : FailureContext)
    (config : GreenlitConfig) :
    findCodeownersMatch (buildCandidateFiles context)
      (loadCodeowners fsDocs
        (match config.owner_routing with
         | some oc => oc.codeowners_paths
         | none => [])) = none →
    resolveOwnerFromBlame env context
      (match config.owner_routing with
       | some oc => oc.blame_depth
       | none => 1) = none →
    resolveOwnerFromTeamMap (buildCandidateFiles context) config = none →
    resolveOwnerFromLastCommit env (buildCandidateFiles context) = none →
    resolveOwnerAssignment env fsDocs context config =
      { owner := jsOrStr (config.owner_routing.bind (·.fallback_owner))
          "unassigned",
        source := .fallback, reason := "fallback owner",
        confidence := .low } ∧
    (config.owner_routing = none →
      (resolveOwnerAssignment env fsDocs context config).owner =
        "unassigned") := by
  intro h1 h2 h3 h4
  have hmain : resolveOwnerAssignment env fsDocs context config =
      { owner := jsOrStr (config.owner_routing.bind (·.fallback_owner))
          "unassigned",
        source := .fallback, reason := "fallback owner",
        confidence := .low } := by
    rw [resolveOwnerAssignment]
    simp only [h1, h2, h3, h4]
  refine ⟨hmain, fun hnone => ?_⟩
  rw [hmain, hnone]
  rfl

/-- Witness for C9: empty environment, empty configuration. -/
theorem c9_fallback_assignment_witness :
    resolveOwnerAssignment ⟨fun _ _ => none, fun _ => none⟩ [] { } { } =
      { owner := "unassigned", source := .fallback,
        reason := "fallback owner", confidence := .low } :=
  (c9_fallback_assignment ⟨fun _ _ => none, fun _ => none⟩ [] { } { }
    rfl rfl rfl rfl).1

/-! ### C6: evidence selection -/

/-- The claim's window score: 1 + keyword count over the window from two
lines before through **three** lines after the matching line (the code
actually stops two lines after; see the counterexample). -/
def claimScoreWindow (lines : List String) (index : Nat) : Nat :=
  let a := index - 2
  let b := min (index + 4) lines.length
  1 + countKeywords (String.intercalate "\n" ((lines.drop a).take (b - a))).data

/-- All matches scored by the claim's window. -/
def claimCollectMatches (lines : List String) : List FileLineMatch :=
  lines.enum.flatMap fun p =>
    (fileLineMatches p.2.data).map fun hit =>
      { file := ⟨hit.file⟩, line := ⟨hit.line⟩,
        matchedText := ⟨hit.matchedText⟩,
        score := claimScoreWindow lines p.1, idx := p.1 }

/-- First element attaining the maximal score (earliest wins ties). -/
def firstMaxByScore : List FileLineMatch → Option FileLineMatch
  | [] => none
  | x :: xs =>
    match firstMaxByScore xs with
    | none => some x
    | some y => if x.score ≥ y.score then some x else some y

/-- The log of the C6 counterexample: the first file match has a failure
keyword exactly three lines below it (inside the claim's window, outside
the code's), the second has one two lines above. -/
def c6Log : String :=
  "at src/a.ts:1:1\n\n\nerror\n\n\n\nerror\n\nat src/b.ts:2:2"

def c6Lines : List String := (splitNl c6Log.data).map fun l => ⟨l⟩

theorem sortByScore_head :
    ∀ l : List FileLineMatch, (sortByScore l).head? = firstMaxByScore l := by
  intro l
  induction l with
  | nil => rfl
  | cons x xs ih =>
    rw [sortByScore, firstMaxByScore, ← ih]
    cases h : sortByScore xs with
    | nil => simp [insertByScore]
    | cons y t =>
      by_cases hs : x.score ≥ y.score <;> simp [insertByScore, hs]

theorem firstMaxByScore_none :
    ∀ l : List FileLineMatch, firstMaxByScore l = none ↔ l = [] := by
  intro l
  cases l with
  | nil => simp [firstMaxByScore]
  | cons x xs =>
    simp only [firstMaxByScore]
    cases firstMaxByScore xs with
    | none => simp
    | some y => by_cases h : x.score ≥ y.score <;> simp [h]

theorem firstMaxByScore_spec :
    ∀ (l : List FileLineMatch) (m : FileLineMatch),
      firstMaxByScore l = some m →
        (∃ pre post, l = pre ++ m :: post ∧ ∀ x ∈ pre, x.score < m.score) ∧
        ∀ x ∈ l, x.score ≤ m.score := by
  intro l
  induction l with
  | nil => intro m h; cases h
  | cons x xs ih =>
    intro m h
    rw [firstMaxByScore] at h
    cases hxs : firstMaxByScore xs with
    | none =>
      rw [hxs] at h
      cases h
      have : xs = [] := (firstMaxByScore_none xs).mp hxs
      subst this
      exact ⟨⟨[], [], rfl, by simp⟩, by simp⟩
    | some y =>
      rw [hxs] at h
      have h' : (if x.score ≥ y.score then some x else some y) = some m := h
      obtain ⟨⟨pre', post', hsplit, hpre'⟩, hmax'⟩ := ih y hxs
      by_cases hs : x.score ≥ y.score
      · rw [if_pos hs] at h'
        cases h'
        refine ⟨⟨[], xs, rfl, by simp⟩, ?_⟩
        intro z hz
        rcases List.mem_cons.mp hz with hz | hz
        · subst hz; exact le_refl _
        · exact le_trans (hmax' z hz) hs
      · rw [if_neg hs] at h'
        cases h'
        refine ⟨⟨x :: pre', post', by rw [hsplit]; rfl, ?_⟩, ?_⟩
        · intro z hz
          rcases List.mem_cons.mp hz with hz | hz
          · subst hz; exact Nat.lt_of_not_le hs
          · exact hpre' z hz
        · intro z hz
          rcases List.mem_cons.mp hz with hz | hz
          · subst hz; exact Nat.le_of_lt (Nat.lt_of_not_le hs)
          · exact hmax' z hz

theorem splitNl_ne_nil : ∀ s : List Char, splitNl s ≠ [] := by
  intro s
  cases s with
  | nil => simp [splitNl]
  | cons c cs =>
    simp only [splitNl]
    cases h : splitNl cs with
    | nil => by_cases hc : c == '\n' <;> simp [hc]
    | cons hd tl => by_cases hc : c == '\n' <;> simp [hc]

/-- Counterexample for **C6** as stated: with the claim's window (2
before through **3 after**) the first match (`src/a.ts`, whose keyword
sits exactly 3 lines below) ties the second and wins by earliest index,
but the code's window stops 2 lines after, so `buildEvidencePack`
selects `src/b.ts`; moreover an empty log yields no excerpt rather than
an (empty) last-10-lines excerpt. -/
theorem c6_window_counterexample :
    (firstMaxByScore (claimCollectMatches c6Lines)).map (·.file) =
      some "src/a.ts" ∧
    (buildEvidencePack c6Log []).file = some "src/b.ts" ∧
    (buildEvidencePack "" []).excerpt = none := by
  refine ⟨by decide, by decide, by decide⟩

/-- **C6 (amended).** `buildEvidencePack` selects file and line by the
scored-window rule where the window runs from 2 lines before through
**2** lines after the matching line (`slice(i-2, i+3)` is end-exclusive):
every recorded match is scored 1 + the keyword count of its line's
window; the selected match is the first one attaining the maximal score
(earliest line index wins ties).  With no match, `file`/`line` are unset
and the excerpt is the last 10 lines of the log (left unset when that
text is empty, i.e. for an empty log).  `job`/`step` always come from
the first failed job and its first failed step. -/
theorem c6_evidence_selection (logs : String) (failedJobs : List FailedJob)
    (lines : List String)
    (hlines : lines = (splitNl logs.data).map fun l => (⟨l⟩ : String)) :
    (∀ m ∈ collectMatches lines,
      m.score = 1 + countKeywords (String.intercalate "\n"
        ((lines.drop (m.idx - 2)).take
          (min (m.idx + 3) lines.length - (m.idx - 2)))).data) ∧
    (collectMatches lines = [] →
      (buildEvidencePack logs failedJobs).file = none ∧
      (buildEvidencePack logs failedJobs).line = none ∧
      (buildEvidencePack logs failedJobs).excerpt =
        (if String.intercalate "\n" (lines.drop (lines.length - 10)) = ""
         then none
         else some (String.intercalate "\n"
           (lines.drop (lines.length - 10))))) ∧
    (∀ sel, findBestFileLineMatch lines = some sel →
      (buildEvidencePack logs failedJobs).file = some sel.file ∧
      (buildEvidencePack logs failedJobs).line = some sel.line ∧
      sel ∈ collectMatches lines ∧
      (∀ x ∈ collectMatches lines, x.score ≤ sel.score) ∧
      ∃ pre post, collectMatches lines = pre ++ sel :: post ∧
        ∀ x ∈ pre, x.score < sel.score) ∧
    (buildEvidencePack logs failedJobs).job =
      failedJobs.head?.map (·.jobName) ∧
    (buildEvidencePack logs failedJobs).step =
      (failedJobs.head?.bind fun j => j.failedSteps.head?.map (·.stepName)) := by
  have hlines' : ((splitNl logs.data).map fun l => (⟨l⟩ : String)) = lines :=
    hlines.symm
  have hne : lines ≠ [] := by
    cases hsp : splitNl logs.data with
    | nil => exact absurd hsp (splitNl_ne_nil logs.data)
    | cons a t => simp [hlines, hsp]
  refine ⟨?_, ?_, ?_, ?_, ?_⟩
  · intro m hm
    simp only [collectMatches, List.mem_flatMap, List.mem_map] at hm
    obtain ⟨p, hp, hit, hhit, rfl⟩ := hm
    simp [scoreEvidenceWindow]
  · intro h
    have hb : findBestFileLineMatch lines = none := by
      rw [findBestFileLineMatch, h]; rfl
    obtain ⟨l0, lrest, hcons⟩ := List.exists_cons_of_ne_nil hne
    refine ⟨?_, ?_, ?_⟩
    · simp [buildEvidencePack, hlines', hb]
    · simp [buildEvidencePack, hlines', hb]
    · simp only [buildEvidencePack, hlines', hb, Option.map_none']
      simp [extractExcerpt, hcons]
  · intro sel hsel
    have hfm : firstMaxByScore (collectMatches lines) = some sel := by
      rw [← sortByScore_head, ← findBestFileLineMatch, hsel]
    obtain ⟨⟨pre, post, hsplit, hpre⟩, hmax⟩ :=
      firstMaxByScore_spec (collectMatches lines) sel hfm
    refine ⟨?_, ?_, ?_, hmax, pre, post, hsplit, hpre⟩
    · simp only [buildEvidencePack, hlines', hsel, Option.map_some']
    · simp only [buildEvidencePack, hlines', hsel, Option.map_some']
    · rw [hsplit]; simp
  · simp [buildEvidencePack]
  · simp [buildEvidencePack]

/-- Witness for the amended C6: the selected match at `c6Log`, and the
no-match branch at a plain log. -/
theorem c6_evidence_selection_witness :
    (buildEvidencePack c6Log []).file = some "src/b.ts" ∧
    (buildEvidencePack "nothing here" []).file = none := by
  constructor
  · exact ((c6_evidence_selection c6Log [] c6Lines rfl).2.2.1
      ⟨"src/b.ts", "2", "src/b.ts:2:2", 2, 9⟩ (by decide)).1
  · exact ((c6_evidence_selection "nothing here" []
      ((splitNl "nothing here".data).map fun l => ⟨l⟩) rfl).2.1
      (by decide)).1

end Greenlit

